import Mathlib

/-!
Shallow embedding of the order-and-line-item synthesis engine of
`populate.py` (RushMore pizzeria data platform).

The storage collaborator (psycopg2/PostgreSQL) is external to the core; its
operations are modelled by their documented semantics: bulk inserts insert
their rows (the `orders` sequence assigning ascending identifiers), the
grouped-aggregate `UPDATE` acts per its SQL, and all statements of a batch
take effect atomically at the final `conn.commit()`.  In particular, the
cursor protocol of `execute_values(..., fetch=True)` followed by
`cur.fetchall()` (populate.py lines 204–209) is modelled faithfully:
`execute_values` consumes the `RETURNING` rows internally and the source
discards its return value, so the subsequent `cur.fetchall()` yields `[]`
(or raises `ProgrammingError` when no statement was executed at all) — the
program never obtains the generated identifiers.  The random source
(`random` module, Faker) is modelled as oracle streams giving the values
returned by each primitive, one stream per primitive, consumed in call
order.  Prices and totals are exact rationals.
-/

namespace RushmorePopulate

/-- A pending order record as built by `create_orders`
(`(customer_id, store_id, order_timestamp, 0.0)`, populate.py line 182). -/
structure PendingOrder where
  customer_id : Nat
  store_id : Nat
  timestamp : Nat
  total_amount : Rat
  deriving DecidableEq, Repr

/-- A pending line-item record as built by `create_orders`
(`(None, it, qty, price)`, populate.py line 187); the owning order is
unresolved until commit. -/
structure ItemRec where
  item_id : Nat
  quantity : Nat
  price : Rat
  deriving DecidableEq, Repr

/-- A persisted row of the `orders` table. -/
structure OrderRow where
  order_id : Nat
  customer_id : Nat
  store_id : Nat
  timestamp : Nat
  total_amount : Rat
  deriving DecidableEq, Repr

/-- A persisted row of the `order_items` table. -/
structure OrderItemRow where
  order_id : Nat
  item_id : Nat
  quantity : Nat
  price_at_time_of_order : Rat
  deriving DecidableEq, Repr

/-- The relational store: reference tables (already seeded by the excluded
routines), the two order tables, and the `order_id` sequence counter
(identifiers are generated by an ascending sequence, `RESTART IDENTITY`). -/
structure DB where
  stores : List Nat
  customers : List Nat
  menu_items : List Nat
  orders : List OrderRow
  order_items : List OrderItemRow
  next_order_id : Nat
  deriving DecidableEq, Repr

/-- Failure modes.  `indexError` is the error Python's `random.choice` /
`random.choices` raise on an empty sequence; `programmingError` is
psycopg2's `ProgrammingError` ("no results to fetch") raised by
`cur.fetchall()` on a cursor with no result set; `commitFailed` models a
storage-layer failure.  `invalidBatch` and `emptyReferenceSet` are the
errors named by the specification's taxonomy (§7); they are declared so the
spec's claims about them can be stated. -/
inductive Err where
  | indexError
  | programmingError
  | commitFailed
  | invalidBatch
  | emptyReferenceSet
  deriving DecidableEq, Repr

/-- Python `int()` applied to a real value: truncation toward zero. -/
def ratTrunc (q : Rat) : Int :=
  if q < 0 then -⌊-q⌋ else ⌊q⌋

/-- Python `round(x, 2)`: rounding to two decimal places (cents). -/
def round2 (q : Rat) : Rat :=
  (round (q * 100) : Rat) / 100

/-- Python `random.choice(seq)` given the drawn index: returns an element of
`seq`, raising `IndexError` on an empty sequence. -/
def pyChoice (l : List Nat) (i : Nat) : Except Err Nat :=
  if h : 0 < l.length then .ok (l.get ⟨i % l.length, Nat.mod_lt _ h⟩)
  else .error .indexError

/-- Python `next(it, None)` on a list-backed iterator. -/
def next_opt : List Nat → Option Nat × List Nat
  | [] => (none, [])
  | x :: xs => (some x, xs)

/-- The line-item assignment loop of `batch_insert_orders_and_items`
(populate.py lines 213–221): walk the pending records, assigning each to the
current order id; stop when the id stream is exhausted; after each
assignment draw `random.random()` and advance to the next id when the draw
is below 0.4.  `rt` is the `random.random()` stream, `p` its position.
Returns (assigned rows, final current id, remaining ids, final position). -/
def assign_loop (rt : Nat → Rat) :
    List ItemRec → Option Nat → List Nat → Nat →
    List OrderItemRow × Option Nat × List Nat × Nat
  | [], cur, rest, p => ([], cur, rest, p)
  | _ :: _, none, rest, p => ([], none, rest, p)
  | rec :: recs, some c, rest, p =>
    let step := if rt p < (Rat.divInt 2 5) then next_opt rest else (some c, rest)
    let out := assign_loop rt recs step.1 step.2 (p + 1)
    (⟨c, rec.item_id, rec.quantity, rec.price⟩ :: out.1, out.2.1, out.2.2.1, out.2.2.2)

/-- The identifier window of the totals `UPDATE` (populate.py line 235):
`SELECT order_id FROM orders ORDER BY order_id DESC LIMIT n`. -/
def recent_window (allIds : List Nat) (n : Nat) : List Nat :=
  (List.insertionSort (· ≥ ·) allIds).take n

/-- Effect of the totals `UPDATE` (populate.py lines 230–238) on one
`orders` row: rows whose id is in the window and owns at least one
`order_items` row get `total_amount = SUM(quantity * price_at_time_of_order)`
over their rows; all other rows are untouched (the grouped subquery produces
no row for them). -/
def apply_totals (items : List OrderItemRow) (window : List Nat) (o : OrderRow) : OrderRow :=
  let mine := items.filter (fun it => it.order_id == o.order_id)
  if o.order_id ∈ window ∧ mine ≠ [] then
    { o with total_amount := (mine.map (fun it => (it.quantity : Rat) * it.price_at_time_of_order)).sum }
  else o

/-- The identifier retrieval of populate.py lines 204–209:
`execute_values(cur, "INSERT ... RETURNING order_id", order_records,
fetch=True)` followed by `inserted = cur.fetchall()`.  Per psycopg2's
documented semantics, `execute_values` with `fetch=True` executes one
statement per page (page_size 100) and fetches each page's `RETURNING` rows
internally, returning them from the call — a return value the source
discards.  The subsequent `cur.fetchall()` therefore finds the current
result set already consumed and returns `[]`; when `order_records` is empty
`execute_values` executes no statement at all, so the fresh cursor has no
result set and `cur.fetchall()` raises `ProgrammingError`.  `n` is the
number of submitted records; the result is the list the program binds to
`inserted` (hence `order_ids`). -/
def discarded_then_fetchall (n : Nat) : Except Err (List Nat) :=
  if n = 0 then .error .programmingError else .ok []

/-- `batch_insert_orders_and_items` (populate.py lines 200–240), the
transaction body: bulk-insert the order records (the `orders` sequence
assigns ascending identifiers to the inserted rows), retrieve `order_ids`
via `discarded_then_fetchall` (always `[]` — the source never obtains the
generated identifiers), walk the pending line items against that id stream,
insert the assigned items, and run the totals update over the window of the
most recent `len(order_ids)` identifiers (`LIMIT 0`).  `rt`/`rp` are the
shared `random.random()` stream and its position.  On success returns (new
state, `order_ids` as returned at line 240, new stream position); an
uncaught `ProgrammingError` aborts the batch before `conn.commit()`. -/
def batch_insert_orders_and_items (db : DB) (order_records : List PendingOrder)
    (order_items_records : List ItemRec) (rt : Nat → Rat) (rp : Nat) :
    Except Err (DB × List Nat × Nat) :=
  let seq_ids := (List.range order_records.length).map (fun k => db.next_order_id + k)
  let newOrders := (seq_ids.zip order_records).map
    (fun pr => OrderRow.mk pr.1 pr.2.customer_id pr.2.store_id pr.2.timestamp pr.2.total_amount)
  let orders1 := db.orders ++ newOrders
  match discarded_then_fetchall order_records.length with
  | .error e => .error e
  | .ok order_ids =>
    let start := next_opt order_ids
    let res := assign_loop rt order_items_records start.1 start.2 rp
    let items1 := db.order_items ++ res.1
    let window := recent_window (orders1.map (fun o => o.order_id)) order_ids.length
    .ok ({ db with
        orders := orders1.map (apply_totals items1 window)
        order_items := items1
        next_order_id := db.next_order_id + order_records.length },
     order_ids, res.2.2.2)

/-- Modelled from the spec: the storage collaborator's transactional
commit/rollback semantics (§4.3 step 5, §6, §7), which live in
psycopg2/PostgreSQL, outside this repository's source.  Each storage
operation of the batch may fail per the oracle `fails`: index 0 the orders
`INSERT` pages (executed only when `order_records` is non-empty), then the
identifier fetch per `discarded_then_fetchall` (which itself raises on an
empty batch), index 1 the line-item `INSERT` (executed only when some line
item was assigned, matching `if assigned_items:`), index 2 the totals
`UPDATE`, index 3 the final `conn.commit()`.  Effects become durable only
at that final commit, so any failure leaves the durable state unchanged. -/
def batch_insert_durable (db : DB) (order_records : List PendingOrder)
    (order_items_records : List ItemRec) (rt : Nat → Rat) (rp : Nat)
    (fails : Nat → Bool) : Option Err × DB :=
  if order_records ≠ [] ∧ fails 0 then (some .commitFailed, db)
  else
    match batch_insert_orders_and_items db order_records order_items_records rt rp with
    | .error e => (some e, db)
    | .ok r =>
      let start := next_opt r.2.1
      let res := assign_loop rt order_items_records start.1 start.2 rp
      if res.1 ≠ [] ∧ fails 1 then (some .commitFailed, db)
      else if fails 2 then (some .commitFailed, db)
      else if fails 3 then (some .commitFailed, db)
      else (none, r.1)

/-- The random source, one oracle stream per primitive of the excluded
`random`/Faker collaborators, giving the values those primitives return
(for `random.choice`/`random.choices` the drawn position, for
`random.randint(1,3)` the raw draw mapped into `{1,2,3}` by `1 + d % 3`). -/
structure Oracle where
  choice : Nat → Nat
  gauss : Nat → Rat
  randint : Nat → Nat
  uniform : Nat → Rat
  rnd : Nat → Rat
  ts : Nat → Nat

/-- Per-stream positions into the oracle, advanced in call order. -/
structure Ctr where
  choice : Nat
  gauss : Nat
  randint : Nat
  uniform : Nat
  rnd : Nat
  ts : Nat
  deriving DecidableEq, Repr

/-- `random.choices(items, k=k)` (populate.py line 179): `k` independent
uniform picks with replacement; raises on an empty population. -/
def pick_items (items : List Nat) (orc : Oracle) :
    Nat → Nat → Except Err (List Nat × Nat)
  | 0, c => .ok ([], c)
  | k + 1, c =>
    match pyChoice items (orc.choice c) with
    | .error e => .error e
    | .ok it =>
      match pick_items items orc k (c + 1) with
      | .error e => .error e
      | .ok rest => .ok (it :: rest.1, rest.2)

/-- The per-item loop of populate.py lines 184–187: for each chosen menu
item, `qty = random.randint(1, 3)` and
`price = round(random.uniform(2.5, 20.0), 2)`. -/
def mk_items (orc : Oracle) : List Nat → Nat → Nat → List ItemRec
  | [], _, _ => []
  | it :: rest, cr, cu =>
    ⟨it, 1 + orc.randint cr % 3, round2 (orc.uniform cu)⟩ :: mk_items orc rest (cr + 1) (cu + 1)

/-- One iteration of the generation loop of `create_orders`
(populate.py lines 176–187): pick a customer and a store, draw the
line-item count as `max(1, int(random.gauss(AVG_ITEMS_PER_ORDER, 1)))`,
pick that many menu items, draw a timestamp, and emit the pending order
record (placeholder total `0.0`) with its pending line-item records. -/
def gen_order (stores customers items : List Nat) (orc : Oracle) (c : Ctr) :
    Except Err (PendingOrder × List ItemRec × Ctr) :=
  match pyChoice customers (orc.choice c.choice) with
  | .error e => .error e
  | .ok cust =>
    match pyChoice stores (orc.choice (c.choice + 1)) with
    | .error e => .error e
    | .ok store =>
      match pick_items items orc ((max 1 (ratTrunc (orc.gauss c.gauss))).toNat)
          (c.choice + 2) with
      | .error e => .error e
      | .ok chosen =>
        .ok (⟨cust, store, orc.ts c.ts, 0⟩, mk_items orc chosen.1 c.randint c.uniform,
             ⟨chosen.2, c.gauss + 1,
              c.randint + (max 1 (ratTrunc (orc.gauss c.gauss))).toNat,
              c.uniform + (max 1 (ratTrunc (orc.gauss c.gauss))).toNat, c.rnd, c.ts + 1⟩)

/-- The driving loop of `create_orders` (populate.py lines 175–195):
generate the remaining orders one at a time, accumulate the pending
records, flush to `batch_insert_orders_and_items` whenever
`len(order_records) >= BATCH_SIZE` clearing both accumulators, and flush
the remaining partial accumulator once the target is reached.  Also
returns, in order, each batch handed to the committer. -/
def create_loop (stores customers items : List Nat) (bs : Nat) (orc : Oracle) :
    Nat → DB → List PendingOrder → List ItemRec →
    List (List PendingOrder × List ItemRec) → Ctr →
    Except Err (DB × List (List PendingOrder × List ItemRec))
  | 0, db, accO, accI, batches, c =>
    if accO ≠ [] then
      match batch_insert_orders_and_items db accO accI orc.rnd c.rnd with
      | .error e => .error e
      | .ok r => .ok (r.1, batches ++ [(accO, accI)])
    else .ok (db, batches)
  | n + 1, db, accO, accI, batches, c =>
    match gen_order stores customers items orc c with
    | .error e => .error e
    | .ok g =>
      if bs ≤ (accO ++ [g.1]).length then
        match batch_insert_orders_and_items db (accO ++ [g.1]) (accI ++ g.2.1)
            orc.rnd g.2.2.rnd with
        | .error e => .error e
        | .ok r =>
          create_loop stores customers items bs orc n r.1 [] []
            (batches ++ [(accO ++ [g.1], accI ++ g.2.1)]) { g.2.2 with rnd := r.2.2 }
      else
        create_loop stores customers items bs orc n db (accO ++ [g.1]) (accI ++ g.2.1)
          batches g.2.2

/-- The reference-loading step of `create_orders` (populate.py lines
163–169): read the three reference-identifier sets.  The source performs
no emptiness check here. -/
def load_references (db : DB) : List Nat × List Nat × List Nat :=
  (db.stores, db.customers, db.menu_items)

/-- `create_orders` (populate.py lines 162–197), parameterized by the
target order count and batch size (the configuration surface, §6). -/
def create_orders (num_orders batch_size : Nat) (db : DB) (orc : Oracle) :
    Except Err (DB × List (List PendingOrder × List ItemRec)) :=
  let refs := load_references db
  create_loop refs.1 refs.2.1 refs.2.2 batch_size orc num_orders db [] [] [] ⟨0, 0, 0, 0, 0, 0⟩

/-! ### Helper lemmas -/

theorem assign_loop_none (rt : Nat → Rat) (recs : List ItemRec) (rest : List Nat) (p : Nat) :
    assign_loop rt recs none rest p = ([], none, rest, p) := by
  cases recs <;> rfl

theorem mk_items_length (orc : Oracle) :
    ∀ (chosen : List Nat) (cr cu : Nat), (mk_items orc chosen cr cu).length = chosen.length := by
  intro chosen
  induction chosen with
  | nil => intro cr cu; rfl
  | cons it rest ih =>
    intro cr cu
    simp only [mk_items, List.length_cons, ih]

theorem pick_items_length (items : List Nat) (orc : Oracle) :
    ∀ (k c : Nat) (out : List Nat × Nat),
      pick_items items orc k c = .ok out → out.1.length = k := by
  intro k
  induction k with
  | zero =>
    intro c out h
    simp only [pick_items] at h
    cases h
    rfl
  | succ k ih =>
    intro c out h
    simp only [pick_items] at h
    cases hc : pyChoice items (orc.choice c) with
    | error e => rw [hc] at h; exact Except.noConfusion h
    | ok it =>
      rw [hc] at h
      cases hrest : pick_items items orc k (c + 1) with
      | error e => rw [hrest] at h; exact Except.noConfusion h
      | ok rest =>
        rw [hrest] at h
        cases h
        simp only [List.length_cons, ih (c + 1) rest hrest]

theorem apply_totals_nil_window (items : List OrderItemRow) (o : OrderRow) :
    apply_totals items [] o = o := by
  simp [apply_totals]

theorem batch_insert_ok (db : DB) (recs : List PendingOrder) (irecs : List ItemRec)
    (rt : Nat → Rat) (rp : Nat) (hne : recs ≠ []) :
    batch_insert_orders_and_items db recs irecs rt rp
      = .ok ({ db with
          orders := db.orders ++
            ((((List.range recs.length).map (fun k => db.next_order_id + k)).zip recs).map
              (fun pr => OrderRow.mk pr.1 pr.2.customer_id pr.2.store_id pr.2.timestamp
                pr.2.total_amount)),
          order_items := db.order_items,
          next_order_id := db.next_order_id + recs.length }, [], rp) := by
  have hlen : ¬ recs.length = 0 := fun h => hne (List.length_eq_zero.mp h)
  simp only [batch_insert_orders_and_items, discarded_then_fetchall, if_neg hlen,
    next_opt, assign_loop_none, List.append_nil, recent_window, List.length_nil,
    List.take_zero]
  rw [List.map_congr_left (fun o _ => apply_totals_nil_window db.order_items o), List.map_id']

theorem batch_insert_ok_exists (db : DB) (recs : List PendingOrder) (irecs : List ItemRec)
    (rt : Nat → Rat) (rp : Nat) (hne : recs ≠ []) :
    ∃ r, batch_insert_orders_and_items db recs irecs rt rp = .ok r :=
  ⟨_, batch_insert_ok db recs irecs rt rp hne⟩

theorem batch_insert_empty (db : DB) (irecs : List ItemRec) (rt : Nat → Rat) (rp : Nat) :
    batch_insert_orders_and_items db [] irecs rt rp = .error Err.programmingError := rfl

/-- C5 counterexample: at a Gaussian draw of 3.7 the generator produces
`max(1, int(3.7)) = 3` line items for the order, while the claim's formula
`max(1, round(3.7))` gives 4. -/
theorem line_item_count_rounding_counterexample :
    (gen_order [5] [7] [3]
        ⟨fun _ => 0, fun _ => 37/10, fun _ => 0, fun _ => 3, fun _ => 0, fun _ => 0⟩
        ⟨0, 0, 0, 0, 0, 0⟩).toOption.map (fun r => r.2.1.length) = some 3 ∧
    (max 1 (round ((37 : Rat)/10))).toNat = 4 := by
  constructor
  · have htr : ratTrunc ((37 : Rat)/10) = 3 := by
      unfold ratTrunc
      rw [if_neg (by norm_num)]
      norm_num
    simp only [gen_order, htr]
    norm_num [pyChoice, pick_items, mk_items, Except.toOption]
  · have h4 : round ((37 : Rat)/10) = 4 := by
      rw [round_eq]
      norm_num
    rw [h4]
    rfl

/-- C5 amended: for every generated order the per-order line-item count
equals `max(1, int(g))` applied to the Gaussian draw `g` taken from the
random source for that order, where `int` truncates toward zero (Python
`int()`), not rounding to the nearest integer. -/
theorem line_item_count_truncates_gauss (stores customers items : List Nat)
    (orc : Oracle) (c : Ctr) :
    (gen_order stores customers items orc c).toOption.map (fun r => r.2.1.length)
      = (gen_order stores customers items orc c).toOption.map
        (fun _ => (max 1 (ratTrunc (orc.gauss c.gauss))).toNat) := by
  unfold gen_order
  cases h1 : pyChoice customers (orc.choice c.choice) with
  | error e => rfl
  | ok cust =>
    cases h2 : pyChoice stores (orc.choice (c.choice + 1)) with
    | error e => rfl
    | ok store =>
      cases h3 : pick_items items orc ((max 1 (ratTrunc (orc.gauss c.gauss))).toNat)
          (c.choice + 2) with
      | error e => rfl
      | ok chosen =>
        simp only [Except.toOption, Option.map_some']
        rw [mk_items_length,
          pick_items_length items orc _ _ chosen h3]

/-- Sizes of the batches flushed by the orchestrator loop when `r` orders
remain to generate and `a` orders are already accumulated. -/
def sizesF (bs : Nat) : Nat → Nat → List Nat
  | 0, a => if a = 0 then [] else [a]
  | r + 1, a => if bs ≤ a + 1 then bs :: sizesF bs r 0 else sizesF bs r (a + 1)

theorem pyChoice_ok_of_ne (l : List Nat) (i : Nat) (h : l ≠ []) :
    ∃ x, pyChoice l i = .ok x := by
  unfold pyChoice
  rw [dif_pos (List.length_pos.mpr h)]
  exact ⟨_, rfl⟩

theorem pyChoice_error_eq (l : List Nat) (i : Nat) (e : Err)
    (h : pyChoice l i = .error e) : e = Err.indexError := by
  unfold pyChoice at h
  split at h
  · exact Except.noConfusion h
  · cases h
    rfl

theorem pyChoice_ok_ne (l : List Nat) (i : Nat) (x : Nat)
    (h : pyChoice l i = .ok x) : l ≠ [] := by
  unfold pyChoice at h
  split at h
  · next hpos => exact List.ne_nil_of_length_pos hpos
  · exact Except.noConfusion h

theorem pick_items_ok_of_ne (items : List Nat) (orc : Oracle) (h : items ≠ []) :
    ∀ (k c : Nat), ∃ out, pick_items items orc k c = .ok out := by
  intro k
  induction k with
  | zero => intro c; exact ⟨([], c), rfl⟩
  | succ k ih =>
    intro c
    obtain ⟨x, hx⟩ := pyChoice_ok_of_ne items (orc.choice c) h
    obtain ⟨out, hout⟩ := ih (c + 1)
    refine ⟨(x :: out.1, out.2), ?_⟩
    simp only [pick_items, hx, hout]

theorem gen_order_ok_of_ne (stores customers items : List Nat) (orc : Oracle) (c : Ctr)
    (hs : stores ≠ []) (hc : customers ≠ []) (hi : items ≠ []) :
    ∃ g, gen_order stores customers items orc c = .ok g := by
  obtain ⟨cust, hcust⟩ := pyChoice_ok_of_ne customers (orc.choice c.choice) hc
  obtain ⟨store, hstore⟩ := pyChoice_ok_of_ne stores (orc.choice (c.choice + 1)) hs
  obtain ⟨chosen, hchosen⟩ := pick_items_ok_of_ne items orc hi
    ((max 1 (ratTrunc (orc.gauss c.gauss))).toNat) (c.choice + 2)
  refine ⟨(⟨cust, store, orc.ts c.ts, 0⟩, mk_items orc chosen.1 c.randint c.uniform,
    ⟨chosen.2, c.gauss + 1,
     c.randint + (max 1 (ratTrunc (orc.gauss c.gauss))).toNat,
     c.uniform + (max 1 (ratTrunc (orc.gauss c.gauss))).toNat, c.rnd, c.ts + 1⟩), ?_⟩
  simp only [gen_order, hcust, hstore, hchosen]

theorem create_loop_sizes (stores customers items : List Nat) (bs : Nat) (orc : Oracle)
    (hs : stores ≠ []) (hc : customers ≠ []) (hi : items ≠ []) (hbs : 1 ≤ bs) :
    ∀ (r : Nat) (db : DB) (accO : List PendingOrder) (accI : List ItemRec)
      (batches : List (List PendingOrder × List ItemRec)) (c : Ctr),
      accO.length < bs →
      ∃ out, create_loop stores customers items bs orc r db accO accI batches c = .ok out ∧
        out.2.map (fun b => b.1.length)
          = batches.map (fun b => b.1.length) ++ sizesF bs r accO.length := by
  intro r
  induction r with
  | zero =>
    intro db accO accI batches c _
    cases haccO : accO with
    | nil =>
      refine ⟨(db, batches), ?_, ?_⟩
      · simp [create_loop]
      · simp [sizesF]
    | cons x xs =>
      obtain ⟨rr, hrr⟩ := batch_insert_ok_exists db (x :: xs) accI orc.rnd c.rnd (by simp)
      refine ⟨(rr.1, batches ++ [(x :: xs, accI)]), ?_, ?_⟩
      · simp [create_loop, hrr]
      · simp [sizesF]
  | succ r ih =>
    intro db accO accI batches c hlt
    obtain ⟨g, hg⟩ := gen_order_ok_of_ne stores customers items orc c hs hc hi
    by_cases hflush : bs ≤ (accO ++ [g.1]).length
    · have hlen : (accO ++ [g.1]).length = bs := by
        rw [List.length_append, List.length_singleton] at hflush ⊢
        omega
      obtain ⟨rr, hrr⟩ := batch_insert_ok_exists db (accO ++ [g.1]) (accI ++ g.2.1)
        orc.rnd g.2.2.rnd (by simp)
      obtain ⟨out, hout, hsz⟩ := ih rr.1 [] []
        (batches ++ [(accO ++ [g.1], accI ++ g.2.1)])
        { g.2.2 with rnd := rr.2.2 }
        (by simpa using hbs)
      refine ⟨out, ?_, ?_⟩
      · simp only [create_loop, hg, if_pos hflush, hrr]
        exact hout
      · rw [hsz, List.map_append]
        have hsf : sizesF bs (r + 1) accO.length = bs :: sizesF bs r 0 := by
          have : bs ≤ accO.length + 1 := by
            rw [List.length_append, List.length_singleton] at hflush
            omega
          simp [sizesF, this]
        rw [hsf]
        simp [hlen]
    · have hlt1 : (accO ++ [g.1]).length < bs := Nat.lt_of_not_le hflush
      obtain ⟨out, hout, hsz⟩ := ih db (accO ++ [g.1]) (accI ++ g.2.1) batches g.2.2 hlt1
      refine ⟨out, ?_, ?_⟩
      · simp only [create_loop, hg, if_neg hflush]
        exact hout
      · rw [hsz]
        have hsf : sizesF bs (r + 1) accO.length = sizesF bs r (accO.length + 1) := by
          have : ¬ bs ≤ accO.length + 1 := by
            rw [List.length_append, List.length_singleton] at hflush
            omega
          simp [sizesF, this]
        rw [hsf, List.length_append, List.length_singleton]

theorem sizesF_small (bs : Nat) : ∀ (r a : Nat), a + r < bs →
    sizesF bs r a = if a + r = 0 then [] else [a + r] := by
  intro r
  induction r with
  | zero =>
    intro a _
    simp [sizesF]
  | succ r ih =>
    intro a h
    have hno : ¬ bs ≤ a + 1 := by omega
    rw [show sizesF bs (r + 1) a = sizesF bs r (a + 1) by simp [sizesF, hno]]
    rw [ih (a + 1) (by omega)]
    have : a + 1 + r = a + (r + 1) := by omega
    rw [this]

theorem sizesF_flush (bs : Nat) (hbs : 1 ≤ bs) : ∀ (r a : Nat), a < bs → bs ≤ a + r →
    sizesF bs r a = bs :: sizesF bs (a + r - bs) 0 := by
  intro r
  induction r with
  | zero =>
    intro a ha hle
    omega
  | succ r ih =>
    intro a ha hle
    by_cases hf : bs ≤ a + 1
    · have heq : a + 1 = bs := by omega
      rw [show sizesF bs (r + 1) a = bs :: sizesF bs r 0 by simp [sizesF, hf]]
      have : a + (r + 1) - bs = r := by omega
      rw [this]
    · rw [show sizesF bs (r + 1) a = sizesF bs r (a + 1) by simp [sizesF, hf]]
      rw [ih (a + 1) (by omega) (by omega)]
      have : a + 1 + r = a + (r + 1) := by omega
      rw [this]

theorem sizesF_spec (bs : Nat) (hbs : 1 ≤ bs) : ∀ n : Nat,
    sizesF bs n 0
      = List.replicate (n / bs) bs ++ (if n % bs = 0 then [] else [n % bs]) := by
  intro n
  induction n using Nat.strong_induction_on with
  | _ n ih =>
    by_cases hn : n < bs
    · rw [sizesF_small bs n 0 (by omega)]
      have hdiv : n / bs = 0 := Nat.div_eq_of_lt hn
      have hmod : n % bs = n := Nat.mod_eq_of_lt hn
      rw [hdiv, hmod, List.replicate_zero, List.nil_append]
      simp
    · have hle : bs ≤ n := Nat.le_of_not_lt hn
      rw [sizesF_flush bs hbs n 0 (by omega) (by omega)]
      have hsub : 0 + n - bs = n - bs := by omega
      rw [hsub, ih (n - bs) (by omega)]
      have hdiv : n / bs = (n - bs) / bs + 1 := by
        rw [Nat.div_eq_sub_div (by omega) hle]
      have hmod : n % bs = (n - bs) % bs := (Nat.mod_eq_sub_mod hle)
      rw [hdiv, hmod]
      rfl

/-- C4: the orchestrator invokes the committer exactly when the accumulated
order count reaches the batch size, clears the accumulator after each
flush, and flushes any remaining partial accumulator as a final batch after
the full target has been generated: for a target of `n` orders and batch
size `bs ≥ 1` the committed batch sizes are `n / bs` full batches of `bs`
followed by a final batch of `n % bs` when that remainder is non-zero; in
particular for `n = 10`, `bs = 4` they are `[4, 4, 2]`. -/
theorem orchestrator_flushes_at_batch_size (n bs : Nat) (db : DB) (orc : Oracle)
    (hbs : 1 ≤ bs) (hs : db.stores ≠ []) (hc : db.customers ≠ []) (hi : db.menu_items ≠ []) :
    ∃ out, create_orders n bs db orc = .ok out ∧
      out.2.map (fun b => b.1.length)
        = List.replicate (n / bs) bs ++ (if n % bs = 0 then [] else [n % bs]) ∧
      (n = 10 → bs = 4 → out.2.map (fun b => b.1.length) = [4, 4, 2]) := by
  obtain ⟨out, hout, hsz⟩ := create_loop_sizes db.stores db.customers db.menu_items bs orc
    hs hc hi hbs n db [] [] [] ⟨0, 0, 0, 0, 0, 0⟩ (by simpa using hbs)
  refine ⟨out, hout, ?_, ?_⟩
  · rw [hsz, List.map_nil, List.nil_append, List.length_nil, sizesF_spec bs hbs n]
  · intro h10 h4
    subst h10
    subst h4
    rw [hsz, List.map_nil, List.nil_append, List.length_nil, sizesF_spec 4 hbs 10]
    rfl

theorem pick_items_empty (orc : Oracle) (k c : Nat) (hk : 1 ≤ k) :
    pick_items [] orc k c = .error Err.indexError := by
  cases k with
  | zero => omega
  | succ k => rfl

theorem max_one_toNat_pos (x : Int) : 1 ≤ (max 1 x).toNat := by
  have h : (1 : Int) ≤ max 1 x := le_max_left 1 x
  omega

theorem gen_order_empty_ref (stores customers items : List Nat) (orc : Oracle) (c : Ctr)
    (h : stores = [] ∨ customers = [] ∨ items = []) :
    gen_order stores customers items orc c = .error Err.indexError := by
  cases hcust : pyChoice customers (orc.choice c.choice) with
  | error e =>
    rw [pyChoice_error_eq customers (orc.choice c.choice) e hcust] at hcust
    simp only [gen_order, hcust]
  | ok cust =>
    have hc : customers ≠ [] := pyChoice_ok_ne customers (orc.choice c.choice) cust hcust
    cases hstore : pyChoice stores (orc.choice (c.choice + 1)) with
    | error e =>
      rw [pyChoice_error_eq stores (orc.choice (c.choice + 1)) e hstore] at hstore
      simp only [gen_order, hcust, hstore]
    | ok store =>
      have hs : stores ≠ [] := pyChoice_ok_ne stores (orc.choice (c.choice + 1)) store hstore
      have hi : items = [] := by
        rcases h with h | h | h
        · exact absurd h hs
        · exact absurd h hc
        · exact h
      subst hi
      have hpick := pick_items_empty orc ((max 1 (ratTrunc (orc.gauss c.gauss))).toNat)
        (c.choice + 2) (max_one_toNat_pos _)
      simp only [gen_order, hcust, hstore, hpick]

/-- C7 counterexample: with an empty customer reference set (stores and
menu items non-empty), the run does not fail with `EmptyReferenceSet`; it
fails with the `IndexError` raised by `random.choice` on the empty
sequence, during order generation — the reference-loading step itself
performs no emptiness check. -/
theorem empty_reference_set_counterexample :
    create_orders 6000 500 ⟨[5], [], [3], [], [], 1⟩
        ⟨fun _ => 0, fun _ => 3, fun _ => 0, fun _ => 3, fun _ => 0, fun _ => 0⟩
      ≠ Except.error Err.emptyReferenceSet ∧
    create_orders 6000 500 ⟨[5], [], [3], [], [], 1⟩
        ⟨fun _ => 0, fun _ => 3, fun _ => 0, fun _ => 3, fun _ => 0, fun _ => 0⟩
      = Except.error Err.indexError := by
  have h : create_orders 6000 500 ⟨[5], [], [3], [], [], 1⟩
      ⟨fun _ => 0, fun _ => 3, fun _ => 0, fun _ => 3, fun _ => 0, fun _ => 0⟩
      = Except.error Err.indexError := by
    have hg := gen_order_empty_ref [5] [] [3]
      ⟨fun _ => 0, fun _ => 3, fun _ => 0, fun _ => 3, fun _ => 0, fun _ => 0⟩
      ⟨0, 0, 0, 0, 0, 0⟩ (Or.inr (Or.inl rfl))
    show create_loop [5] [] [3] 500
        ⟨fun _ => 0, fun _ => 3, fun _ => 0, fun _ => 3, fun _ => 0, fun _ => 0⟩ 6000
        ⟨[5], [], [3], [], [], 1⟩ [] [] [] ⟨0, 0, 0, 0, 0, 0⟩
      = Except.error Err.indexError
    rw [show (6000 : Nat) = 5999 + 1 from rfl]
    simp only [create_loop, hg]
  refine ⟨?_, h⟩
  rw [h]
  intro hc
  cases hc

/-- C7 amended: whenever any of the three reference sets is empty (and at
least one order is to be generated), order creation aborts with the
`IndexError` raised by the first random selection that consults an empty
sequence, during generation of the first order — not with an
`EmptyReferenceSet` error at the reference-loading step; nothing is
committed, the error propagating before any flush. -/
theorem empty_reference_aborts_with_index_error (n bs : Nat) (db : DB) (orc : Oracle)
    (hn : 1 ≤ n)
    (h : db.stores = [] ∨ db.customers = [] ∨ db.menu_items = []) :
    create_orders n bs db orc = .error Err.indexError := by
  cases n with
  | zero => omega
  | succ m =>
    have hg := gen_order_empty_ref db.stores db.customers db.menu_items orc
      ⟨0, 0, 0, 0, 0, 0⟩ h
    show create_loop db.stores db.customers db.menu_items bs orc (m + 1) db [] [] []
      ⟨0, 0, 0, 0, 0, 0⟩ = Except.error Err.indexError
    simp only [create_loop, hg]

/-- C7 witness for the amended claim: a concrete run with an empty store
reference set aborts with `IndexError`. -/
theorem empty_reference_aborts_with_index_error_witness :
    (1 : Nat) ≤ 2 ∧
    create_orders 2 3 ⟨[], [7], [3], [], [], 1⟩
        ⟨fun _ => 0, fun _ => 3, fun _ => 0, fun _ => 3, fun _ => 0, fun _ => 0⟩
      = .error Err.indexError :=
  ⟨by omega,
   empty_reference_aborts_with_index_error 2 3 ⟨[], [7], [3], [], [], 1⟩
     ⟨fun _ => 0, fun _ => 3, fun _ => 0, fun _ => 3, fun _ => 0, fun _ => 0⟩
     (by omega) (Or.inl rfl)⟩

/-- C4 witness: the orchestrator theorem applied at target 10, batch size
4, on non-empty reference sets: the committed batch sizes are `[4, 4, 2]`. -/
theorem orchestrator_flushes_at_batch_size_witness :
    ∃ out, create_orders 10 4 ⟨[5], [7], [3], [], [], 1⟩
        ⟨fun _ => 0, fun _ => 3, fun _ => 0, fun _ => 3, fun _ => 0, fun _ => 0⟩ = .ok out ∧
      out.2.map (fun b => b.1.length)
        = List.replicate (10 / 4) 4 ++ (if 10 % 4 = 0 then [] else [10 % 4]) ∧
      (10 = 10 → 4 = 4 → out.2.map (fun b => b.1.length) = [4, 4, 2]) :=
  orchestrator_flushes_at_batch_size 10 4 ⟨[5], [7], [3], [], [], 1⟩
    ⟨fun _ => 0, fun _ => 3, fun _ => 0, fun _ => 3, fun _ => 0, fun _ => 0⟩
    (by omega) (by decide) (by decide) (by decide)

/-- C1: after every batch commit (non-empty batch, generator placeholder
totals `0`), every order committed in that batch has its persisted total
equal to the sum of `quantity * price` over exactly the line items assigned
to it in that commit, and equal to `0` when it received none.  This holds
degenerately in this program: the committer never obtains the generated
identifiers (`order_ids` is always `[]`), so no line item is ever assigned
or persisted and the totals `UPDATE` (`LIMIT 0`) touches nothing — every
committed order received zero line items and its persisted total is the
`0` placeholder, which equals the empty sum. -/
theorem batch_totals_consistent (db : DB) (recs : List PendingOrder)
    (irecs : List ItemRec) (rt : Nat → Rat) (rp : Nat) (hne : recs ≠ [])
    (h3 : ∀ rec ∈ recs, rec.total_amount = 0) :
    ∃ r, batch_insert_orders_and_items db recs irecs rt rp = .ok r ∧
      ∀ o ∈ r.1.orders.drop db.orders.length,
        o.total_amount
          = (((r.1.order_items.drop db.order_items.length).filter
              (fun it => it.order_id == o.order_id)).map
              (fun it => (it.quantity : Rat) * it.price_at_time_of_order)).sum ∧
        (((r.1.order_items.drop db.order_items.length).filter
            (fun it => it.order_id == o.order_id)) = [] →
          o.total_amount = 0) := by
  refine ⟨_, batch_insert_ok db recs irecs rt rp hne, ?_⟩
  show ∀ o ∈ (db.orders ++
      ((((List.range recs.length).map (fun k => db.next_order_id + k)).zip recs).map
        (fun pr => OrderRow.mk pr.1 pr.2.customer_id pr.2.store_id pr.2.timestamp
          pr.2.total_amount))).drop db.orders.length, _
  rw [List.drop_left]
  intro o ho
  obtain ⟨pr, hpr, hmk⟩ := List.mem_map.mp ho
  have h0 : o.total_amount = 0 := by
    rw [← hmk]
    exact h3 pr.2 (List.of_mem_zip hpr).2
  have hdrop : (db.order_items).drop db.order_items.length = ([] : List OrderItemRow) :=
    List.drop_length _
  constructor
  · show o.total_amount = (((db.order_items.drop db.order_items.length).filter
      (fun it => it.order_id == o.order_id)).map
      (fun it => (it.quantity : Rat) * it.price_at_time_of_order)).sum
    rw [hdrop]
    simpa using h0
  · intro _
    exact h0

/-- C1 witness: the totals theorem applied to a concrete batch of two
orders and one line item on a fresh store. -/
theorem batch_totals_consistent_witness :
    ([(⟨7, 5, 0, 0⟩ : PendingOrder), ⟨7, 5, 1, 0⟩] ≠ []) ∧
    (∀ rec ∈ [(⟨7, 5, 0, 0⟩ : PendingOrder), ⟨7, 5, 1, 0⟩], rec.total_amount = 0) ∧
    (∃ r, batch_insert_orders_and_items ⟨[5], [7], [3], [], [], 1⟩
        [⟨7, 5, 0, 0⟩, ⟨7, 5, 1, 0⟩] [⟨3, 1, 4⟩] (fun _ => 0) 0 = .ok r ∧
      ∀ o ∈ r.1.orders.drop (⟨[5], [7], [3], [], [], 1⟩ : DB).orders.length,
        o.total_amount
          = (((r.1.order_items.drop (⟨[5], [7], [3], [], [], 1⟩ : DB).order_items.length).filter
              (fun it => it.order_id == o.order_id)).map
              (fun it => (it.quantity : Rat) * it.price_at_time_of_order)).sum ∧
        (((r.1.order_items.drop (⟨[5], [7], [3], [], [], 1⟩ : DB).order_items.length).filter
            (fun it => it.order_id == o.order_id)) = [] →
          o.total_amount = 0)) :=
  ⟨by decide, by decide,
   batch_totals_consistent ⟨[5], [7], [3], [], [], 1⟩
     [⟨7, 5, 0, 0⟩, ⟨7, 5, 1, 0⟩] [⟨3, 1, 4⟩] (fun _ => 0) 0 (by decide) (by decide)⟩

/-- C3 failing-input evaluation: on a concrete batch of two orders and one
line item, the committer succeeds but the identifier list it obtained and
returned is `[]` — `execute_values(fetch=True)` consumed the `RETURNING`
rows and `cur.fetchall()` found nothing — so no identifier is consumed
positionally, the assignment loop breaks immediately, no `order_items` row
is persisted, and the committed rows keep their placeholder totals.  The
claim's positional consumption and sequential assignment never occur. -/
theorem positional_consumption_failing_input_eval :
    batch_insert_orders_and_items ⟨[5], [7], [3], [], [], 1⟩
        [⟨7, 5, 0, 0⟩, ⟨7, 5, 1, 0⟩] [⟨3, 1, 4⟩] (fun _ => 0) 0
      = .ok (⟨[5], [7], [3], [⟨1, 7, 5, 0, 0⟩, ⟨2, 7, 5, 1, 0⟩], [], 3⟩, [], 0) := rfl

/-- C6: each batch commit is atomic: for every failure oracle, either no
storage operation failed and the durable state is the complete effect of
the batch — all submitted orders persisted after the prior rows, and (this
program assigning no line item and recomputing no total, `order_ids` being
always empty) the `order_items` table unchanged — or a failure occurred
during the batch (a storage fault, or the `ProgrammingError` of the
empty-batch identifier fetch) and the durable state is exactly the
pre-batch state, nothing half-applied. -/
theorem batch_commit_atomic (db : DB) (recs : List PendingOrder) (irecs : List ItemRec)
    (rt : Nat → Rat) (rp : Nat) (fails : Nat → Bool) :
    (∃ r, batch_insert_orders_and_items db recs irecs rt rp = Except.ok r ∧
      batch_insert_durable db recs irecs rt rp fails = (none, r.1) ∧
      r.1.order_items = db.order_items ∧
      r.1.orders.take db.orders.length = db.orders ∧
      r.1.orders.length = db.orders.length + recs.length) ∨
    ((batch_insert_durable db recs irecs rt rp fails).1 ≠ none ∧
      (batch_insert_durable db recs irecs rt rp fails).2 = db) := by
  cases hrecs : recs with
  | nil =>
    right
    constructor
    · simp [batch_insert_durable, batch_insert_empty]
    · simp [batch_insert_durable, batch_insert_empty]
  | cons x xs =>
    have hok := batch_insert_ok db (x :: xs) irecs rt rp (by simp)
    by_cases h0 : fails 0
    · right
      constructor
      · simp [batch_insert_durable, h0]
      · simp [batch_insert_durable, h0]
    · have hdur : batch_insert_durable db (x :: xs) irecs rt rp fails
          = if fails 2 then (some .commitFailed, db)
            else if fails 3 then (some .commitFailed, db)
            else (none, ({ db with
              orders := db.orders ++
                ((((List.range (x :: xs).length).map (fun k => db.next_order_id + k)).zip
                  (x :: xs)).map
                  (fun pr => OrderRow.mk pr.1 pr.2.customer_id pr.2.store_id pr.2.timestamp
                    pr.2.total_amount)),
              order_items := db.order_items,
              next_order_id := db.next_order_id + (x :: xs).length } : DB)) := by
        unfold batch_insert_durable
        rw [if_neg (fun hc : _ ∧ fails 0 = true => h0 hc.2), hok]
        show (if (assign_loop rt irecs (next_opt ([] : List Nat)).1
            (next_opt ([] : List Nat)).2 rp).1 ≠ [] ∧ fails 1 = true
          then (some Err.commitFailed, db) else _) = _
        rw [show next_opt ([] : List Nat) = (none, []) from rfl, assign_loop_none]
        rw [if_neg (fun hc => hc.1 rfl)]
      by_cases h2 : fails 2
      · right
        rw [hdur, if_pos h2]
        exact ⟨by simp, rfl⟩
      · by_cases h3 : fails 3
        · right
          rw [hdur, if_neg h2, if_pos h3]
          exact ⟨by simp, rfl⟩
        · left
          refine ⟨_, hok, ?_, rfl, List.take_left _ _, ?_⟩
          · rw [hdur, if_neg h2, if_neg h3]
          · simp [List.length_zip]

/-- C8 counterexample: invoking the batch commit with an empty orders list
and a non-empty line-items list does fail, but with the `ProgrammingError`
raised by `cur.fetchall()` on a cursor with no result set — not with
`InvalidBatch`. -/
theorem empty_orders_batch_counterexample :
    batch_insert_orders_and_items ⟨[5], [7], [3], [], [], 1⟩ [] [⟨3, 1, 5⟩] (fun _ => 0) 0
      = Except.error Err.programmingError ∧
    Err.programmingError ≠ Err.invalidBatch := by
  constructor
  · rfl
  · decide

/-- C8 amended: invoking the batch commit operation with an empty orders
list and a non-empty line-items list performs no `InvalidBatch` validation:
`execute_values` executes no statement for the empty argslist, so the
subsequent `cur.fetchall()` raises psycopg2's `ProgrammingError` ("no
results to fetch"); the batch aborts before `conn.commit()` and, per the
atomicity contract, the durable state is unchanged — nothing is
persisted. -/
theorem empty_orders_batch_raises_programming_error (db : DB) (irecs : List ItemRec)
    (rt : Nat → Rat) (rp : Nat) (fails : Nat → Bool) :
    batch_insert_orders_and_items db [] irecs rt rp = .error Err.programmingError ∧
    batch_insert_durable db [] irecs rt rp fails = (some Err.programmingError, db) := by
  constructor
  · exact batch_insert_empty db irecs rt rp
  · simp [batch_insert_durable, batch_insert_empty]

/-- C9: in every (non-empty) batch commit and for every random tape, the
committed orders that received at least one line item form a prefix of the
committed-order sequence — equivalently, orders with zero assigned line
items form a (possibly empty) suffix, and every order before that suffix
received at least one item.  This holds degenerately in this program: no
committed order ever receives a line item (the obtained identifier stream
is empty and the assignment loop breaks immediately), so the prefix is
empty and the zero-item suffix is the entire sequence. -/
theorem batch_assignment_visits_eagerly (db : DB) (recs : List PendingOrder)
    (irecs : List ItemRec) (rt : Nat → Rat) (rp : Nat) (hne : recs ≠ []) :
    ∃ r, batch_insert_orders_and_items db recs irecs rt rp = .ok r ∧
      ∃ m, m ≤ recs.length ∧
        ∀ k, k < recs.length →
          ((∃ row ∈ r.1.order_items.drop db.order_items.length,
              row.order_id = db.next_order_id + k) ↔ k < m) := by
  refine ⟨_, batch_insert_ok db recs irecs rt rp hne, 0, Nat.zero_le _, ?_⟩
  intro k _
  constructor
  · intro hrow
    obtain ⟨row, hmem, _⟩ := hrow
    rw [show ((({ db with
        orders := db.orders ++
          ((((List.range recs.length).map (fun k => db.next_order_id + k)).zip recs).map
            (fun pr => OrderRow.mk pr.1 pr.2.customer_id pr.2.store_id pr.2.timestamp
              pr.2.total_amount)),
        order_items := db.order_items,
        next_order_id := db.next_order_id + recs.length } : DB), ([] : List Nat),
        rp).1.order_items.drop db.order_items.length)
        = ([] : List OrderItemRow) from List.drop_length _] at hmem
    exact absurd hmem (List.not_mem_nil row)
  · intro hk
    omega

/-- C9 witness: the suffix theorem instantiated at a concrete batch of two
orders and two line items. -/
theorem batch_assignment_visits_eagerly_witness :
    ([(⟨7, 5, 0, 0⟩ : PendingOrder), ⟨7, 5, 1, 0⟩] ≠ []) ∧
    (∃ r, batch_insert_orders_and_items ⟨[5], [7], [3], [], [], 1⟩
        [⟨7, 5, 0, 0⟩, ⟨7, 5, 1, 0⟩] [⟨3, 1, 4⟩, ⟨3, 2, 5⟩] (fun _ => 0) 0 = .ok r ∧
      ∃ m, m ≤ ([(⟨7, 5, 0, 0⟩ : PendingOrder), ⟨7, 5, 1, 0⟩]).length ∧
        ∀ k, k < ([(⟨7, 5, 0, 0⟩ : PendingOrder), ⟨7, 5, 1, 0⟩]).length →
          ((∃ row ∈ r.1.order_items.drop
              (⟨[5], [7], [3], [], [], 1⟩ : DB).order_items.length,
              row.order_id = (⟨[5], [7], [3], [], [], 1⟩ : DB).next_order_id + k) ↔ k < m)) :=
  ⟨by decide,
   batch_assignment_visits_eagerly ⟨[5], [7], [3], [], [], 1⟩
     [⟨7, 5, 0, 0⟩, ⟨7, 5, 1, 0⟩] [⟨3, 1, 4⟩, ⟨3, 2, 5⟩] (fun _ => 0) 0 (by decide)⟩

/-- C10: for every (non-empty) batch commit, the line items actually
persisted are exactly the rows appended to `order_items`, they form a
prefix of the submitted pending line items in generation order, and each
persisted row's menu-item reference, quantity and price equal those of the
corresponding submitted record.  This holds degenerately in this program:
the persisted sequence is always the empty prefix — with the obtained
identifier stream empty, `assigned_items` is `[]` and no row is ever
inserted into `order_items`. -/
theorem batch_persists_prefix_of_submitted (db : DB) (recs : List PendingOrder)
    (irecs : List ItemRec) (rt : Nat → Rat) (rp : Nat) (hne : recs ≠ []) :
    ∃ r, batch_insert_orders_and_items db recs irecs rt rp = .ok r ∧
      ∃ A : List OrderItemRow,
        r.1.order_items = db.order_items ++ A ∧
        A.map (fun row => (row.item_id, row.quantity, row.price_at_time_of_order))
          = (irecs.take A.length).map (fun rec => (rec.item_id, rec.quantity, rec.price)) := by
  exact ⟨_, batch_insert_ok db recs irecs rt rp hne, [], by simp, by simp⟩

/-- C10 witness: the prefix theorem instantiated at a concrete batch. -/
theorem batch_persists_prefix_of_submitted_witness :
    ([(⟨7, 5, 0, 0⟩ : PendingOrder), ⟨7, 5, 1, 0⟩] ≠ []) ∧
    (∃ r, batch_insert_orders_and_items ⟨[5], [7], [3], [], [], 1⟩
        [⟨7, 5, 0, 0⟩, ⟨7, 5, 1, 0⟩] [⟨3, 1, 4⟩] (fun _ => 0) 0 = .ok r ∧
      ∃ A : List OrderItemRow,
        r.1.order_items = (⟨[5], [7], [3], [], [], 1⟩ : DB).order_items ++ A ∧
        A.map (fun row => (row.item_id, row.quantity, row.price_at_time_of_order))
          = (([(⟨3, 1, 4⟩ : ItemRec)]).take A.length).map
            (fun rec => (rec.item_id, rec.quantity, rec.price))) :=
  ⟨by decide,
   batch_persists_prefix_of_submitted ⟨[5], [7], [3], [], [], 1⟩
     [⟨7, 5, 0, 0⟩, ⟨7, 5, 1, 0⟩] [⟨3, 1, 4⟩] (fun _ => 0) 0 (by decide)⟩

end RushmorePopulate
